import Mathlib

/-!
Verification of the DocuGen AI project/section content lifecycle.

The development shallowly embeds the parts of the repository that the
claims are about:

* the `Configure` page (`src/unnamed/part_000`): local section-title list,
  `addSection` / `removeSection` / `updateSection`, the `generateOutline`
  call and the `handleSubmit` creation flow;
* the `Editor` page (second file inside `src/src/pages/Dashboard.tsx`):
  `generateAllContent`, `refineSection`, `handleFeedback`, `saveComment`
  and `exportDocument`;
* the `refine-content` edge function (third file inside
  `src/src/pages/Dashboard.tsx`);
* the database schema (`src/unnamed/part_001`).

The `generate-outline` and `generate-content` edge functions are not under
`src/`; the definitions that stand for them are marked
"Modelled from the spec" and follow the spec text.

Database writes are modelled as applied unless the source inspects (or
pointedly ignores) their outcome: the two writes of the `refine-content`
handler and the two inserts of `handleSubmit` carry explicit outcome
parameters because the claims are about those outcomes.  Upstream AI calls
always carry an outcome parameter.  The model is sequential: one user
action runs to completion before the next starts (spec section 5 has no
concurrency coordination at all).
-/

namespace DocMind

/-- JavaScript `String.prototype.trim`, used throughout the client code
(`topic.trim()`, `title.trim()`, `prompt.trim()`, `comment.trim()`):
removes leading and trailing whitespace.  It is defined on the character
list so that concrete instances reduce inside the kernel. -/
def jsTrim (s : String) : String :=
  String.mk (((s.data.dropWhile Char.isWhitespace).reverse.dropWhile Char.isWhitespace).reverse)

/-- The `document_type` column of `projects`: `CHECK (document_type IN ('docx', 'pptx'))`. -/
inductive DocumentType where
  | docx
  | pptx
deriving DecidableEq

/-- The `status` column of `projects`: `CHECK (status IN ('draft', 'generating', 'completed'))`. -/
inductive Status where
  | draft
  | generating
  | completed
deriving DecidableEq

/-- A row of the `sections` table as the Editor sees it (`interface Section`
in the Editor source): id, title, nullable content, `order_index`,
`is_generated`.  Timestamps and `project_id` are dropped: the per-project
state below already fixes the project. -/
structure Section where
  id : String
  title : String
  content : Option String
  order_index : Nat
  is_generated : Bool
deriving DecidableEq

/-- A row of the `refinement_history` table (schema lines 25-32):
`previous_content` is nullable, `new_content` is not. -/
structure RefinementRow where
  section_id : String
  prompt : String
  previous_content : Option String
  new_content : String
deriving DecidableEq

/-- A row of the `feedback` table (schema lines 35-42): generated primary
key `id`, `section_id`, nullable `is_liked`, nullable `comment`.  The
schema has no unique constraint on `section_id`. -/
structure FeedbackRow where
  id : String
  section_id : String
  is_liked : Option Bool
  comment : Option String
deriving DecidableEq

/-- The persisted state of one project together with its owned rows.  Row
ownership and RLS are outside the claims: every operation below acts as
the owning user. -/
structure ProjectState where
  document_type : DocumentType
  topic : String
  status : Status
  sections : List Section
  refinement_history : List RefinementRow
  feedback : List FeedbackRow
deriving DecidableEq

/-- A row of the `projects` table for the whole-store model used by the
creation flow (id, type, topic, status; `user_id` and timestamps elided). -/
structure ProjectRow where
  id : String
  document_type : DocumentType
  topic : String
  status : Status
deriving DecidableEq

/-- A row of the `sections` table in the whole-store model, keeping its
`project_id` foreign key.  `content` defaults to null and `is_generated`
to false at insert time (schema lines 18-19). -/
structure SectionRow where
  id : String
  project_id : String
  title : String
  order_index : Nat
  content : Option String
  is_generated : Bool
deriving DecidableEq

/-- The four-table store, used by the flows that create rows across
projects (`handleSubmit`) or that must be seen to touch no table at all
(`generateOutline`). -/
structure Store where
  projects : List ProjectRow
  sections : List SectionRow
  refinement_history : List RefinementRow
  feedback : List FeedbackRow
deriving DecidableEq

/-- The store with all four tables empty. -/
def emptyStore : Store := ⟨[], [], [], []⟩

/-! ## The Configure page (`src/unnamed/part_000`) -/

/-- The local React state of the Configure page: document type, topic, and
the list of section titles.  `useState` initialisers: `'docx'`, `''`,
`['']`. -/
structure ConfigState where
  documentType : DocumentType
  topic : String
  sections : List String
deriving DecidableEq

/-- The initial Configure state: empty topic, one empty title. -/
def initialConfig : ConfigState := ⟨DocumentType.docx, "", [""]⟩

/-- `addSection` (part_000 lines 23-25): appends one empty title. -/
def addSection (cfg : ConfigState) : ConfigState :=
  { cfg with sections := cfg.sections ++ [""] }

/-- `removeSection` (part_000 lines 27-31): refused when at most one title
remains, otherwise drops the title at `index`
(`sections.filter((_, i) => i !== index)`). -/
def removeSection (cfg : ConfigState) (index : Nat) : ConfigState :=
  if cfg.sections.length > 1 then
    { cfg with sections := (cfg.sections.enum.filter (fun p => p.1 ≠ index)).map Prod.snd }
  else cfg

/-- `updateSection` (part_000 lines 33-37): overwrite the title at `index`. -/
def updateSection (cfg : ConfigState) (index : Nat) (value : String) : ConfigState :=
  { cfg with sections := cfg.sections.set index value }

/-- Modelled from the spec: the `generate-outline` edge function is not
under `src/`.  Spec section 4.1: input topic and document kind, output an
ordered sequence of title strings, and "No persistence side effect —
caller is responsible for storing the result"; the README in src documents
the response as `outline: string[]` with no constraint on its length.
`result` carries the upstream outcome (`none` = failed call). -/
def generateOutlineFn (db : Store) (result : Option (List String)) : Store × Option (List String) :=
  (db, result)

/-- `generateOutline` on the Configure page (part_000 lines 39-60): refuse
when the topic is blank, otherwise invoke the edge function and on success
replace the whole local title list with the returned outline
(`setSections(data.outline)`); on failure only a toast is shown. -/
def generateOutline (db : Store) (cfg : ConfigState) (result : Option (List String)) :
    Store × ConfigState :=
  if jsTrim cfg.topic = "" then (db, cfg)
  else
    match (generateOutlineFn db result).2 with
    | some outline => ((generateOutlineFn db result).1, { cfg with sections := outline })
    | none => ((generateOutlineFn db result).1, cfg)

/-- The validation at the top of `handleSubmit` (part_000 line 65):
`if (!topic.trim() || sections.some(s => !s.trim()))` rejects, so a
submission is accepted iff the trimmed topic is nonempty and no title is
blank after trimming. -/
def validSubmit (topic : String) (titles : List String) : Bool :=
  !(jsTrim topic = "") && !(titles.any (fun s => jsTrim s = ""))

/-- `handleSubmit` (part_000 lines 62-110): validate, require a logged-in
user, insert the project row (status `'draft'`, trimmed topic), then
insert one section row per title with `title: title.trim()` and
`order_index: index` (`sections.map((title, index) => ...)`, mirrored here
by pairing each title with its index).  Each insert carries its outcome;
a failed project insert aborts before any write, while a failed sections
insert happens after the project row is already inserted and nothing
removes that row (the catch block only shows a toast).  Fresh ids are
modelled from row counts.  Returns the store and whether creation
succeeded. -/
def handleSubmit (st : Store) (loggedIn : Bool) (dt : DocumentType) (topic : String)
    (titles : List String) (projectInsertOk sectionsInsertOk : Bool) : Store × Bool :=
  if !(validSubmit topic titles) then (st, false)
  else if !loggedIn then (st, false)
  else if !projectInsertOk then (st, false)
  else
    let pid := toString st.projects.length
    let st1 : Store := { st with projects := st.projects ++ [⟨pid, dt, jsTrim topic, Status.draft⟩] }
    let sectionsData : List SectionRow :=
      ((List.range titles.length).zip titles).map
        (fun p => ⟨pid ++ "." ++ toString p.1, pid, jsTrim p.2, p.1, none, false⟩)
    if !sectionsInsertOk then (st1, false)
    else ({ st1 with sections := st1.sections ++ sectionsData }, true)

/-- The per-project state produced by a successful `handleSubmit` for the
new project, as the Editor then loads it: status `draft`, one section per
title with `order_index` equal to its array index, null content,
`is_generated = false`. -/
def createProject (dt : DocumentType) (topic : String) (titles : List String) : ProjectState :=
  { document_type := dt
    topic := jsTrim topic
    status := Status.draft
    sections := ((List.range titles.length).zip titles).map
      (fun p => ⟨toString p.1, jsTrim p.2, none, p.1, false⟩)
    refinement_history := []
    feedback := [] }

/-- One step of the Configure page: the user edits the form or invokes the
AI suggestion (whose upstream outcome is the constructor argument). -/
inductive CfgOp where
  | setTopic (t : String)
  | setType (dt : DocumentType)
  | add
  | remove (index : Nat)
  | edit (index : Nat) (value : String)
  | suggest (result : Option (List String))

/-- Apply one Configure step to the store and the local form state. -/
def applyCfg (s : Store × ConfigState) : CfgOp → Store × ConfigState
  | CfgOp.setTopic t => (s.1, { s.2 with topic := t })
  | CfgOp.setType dt => (s.1, { s.2 with documentType := dt })
  | CfgOp.add => (s.1, addSection s.2)
  | CfgOp.remove i => (s.1, removeSection s.2 i)
  | CfgOp.edit i v => (s.1, updateSection s.2 i v)
  | CfgOp.suggest result => generateOutline s.1 s.2 result

/-- Run a sequence of Configure steps. -/
def runCfg (s : Store × ConfigState) : List CfgOp → Store × ConfigState
  | [] => s
  | op :: ops => runCfg (applyCfg s op) ops

/-! ## The Editor page and the edge functions -/

/-- Modelled from the spec: the `generate-content` edge function is not
under `src/`.  Spec section 4.2: "upon success, every listed section
acquires generated content and its generated flag is set".  `out`
abstracts the AI text produced for a section title. -/
def generateContentFn (st : ProjectState) (out : String → String) : ProjectState :=
  { st with sections :=
      st.sections.map (fun s => { s with content := some (out s.title), is_generated := true }) }

/-- `generateAllContent` (Editor, lines 221-259 of the concatenated
Dashboard source): set the project status to `'generating'`, invoke
`generate-content` (upstream outcome `ok`), then set status to
`'completed'` on success; the catch block sets status back to `'draft'`.
The three status updates are not error-checked in the source and are
modelled as applied. -/
def generateAllContent (st : ProjectState) (ok : Bool) (out : String → String) : ProjectState :=
  let st1 := { st with status := Status.generating }
  if ok then { generateContentFn st1 out with status := Status.completed }
  else { st1 with status := Status.draft }

/-- The response body of the `refine-content` edge function: the success
path returns `{ success: true, content }`; the 500 path returns an error
body with no success flag, modelled as `success = false`. -/
structure RefineResponse where
  success : Bool
  content : Option String
deriving DecidableEq

/-- The `refine-content` edge function (lines 538-605 of the concatenated
Dashboard source).  `aiResult` is the upstream AI outcome (`none` = the
fetch failed, which throws before any database write).  On success the
handler inserts one `refinement_history` row (prompt, the
`currentContent` sent by the client as `previous_content`, the refined
text as `new_content`) and then updates the section content; the source
never looks at the results of those two awaited writes, so `insertOk` and
`updateOk` only decide whether the rows change while the response is
built identically in all four combinations. -/
def refineContent (st : ProjectState) (sectionId prompt : String)
    (currentContent : Option String) (aiResult : Option String)
    (insertOk updateOk : Bool) : RefineResponse × ProjectState :=
  match aiResult with
  | none => (⟨false, none⟩, st)
  | some refinedContent =>
    let st1 := if insertOk then
        { st with refinement_history :=
            st.refinement_history ++ [⟨sectionId, prompt, currentContent, refinedContent⟩] }
      else st
    let upd : Section → Section :=
      fun s => if s.id = sectionId then { s with content := some refinedContent } else s
    let st2 := if updateOk then { st1 with sections := st1.sections.map upd } else st1
    (⟨true, some refinedContent⟩, st2)

/-- `refineSection` on the Editor (lines 261-293): refuse a blank prompt,
look the section up in the loaded state (sorted as the database returns
it), and invoke `refine-content` with the section's current content and
title; failures only produce a toast. -/
def refineSection (st : ProjectState) (sectionId prompt : String)
    (aiResult : Option String) (insertOk updateOk : Bool) : ProjectState :=
  if jsTrim prompt = "" then st
  else
    match st.sections.find? (fun s => s.id = sectionId) with
    | none => st
    | some sec => (refineContent st sectionId prompt sec.content aiResult insertOk updateOk).2

/-- `handleFeedback` (Editor, lines 295-305): `.upsert({ section_id,
is_liked })`.  The call names no conflict target and omits the generated
primary key `id`; on the `feedback` table the only unique column is `id`
(schema lines 35-42), so the write can never hit a conflict and always
inserts a fresh row (fresh id modelled from the row count).  `ok` is the
write outcome; an error is only logged. -/
def handleFeedback (st : ProjectState) (sectionId : String) (isLiked : Bool) (ok : Bool) :
    ProjectState :=
  if ok then
    { st with feedback :=
        st.feedback ++ [⟨toString st.feedback.length, sectionId, some isLiked, none⟩] }
  else st

/-- `saveComment` (Editor, lines 307-321): refuse a blank comment, then
`.upsert({ section_id, comment: comment.trim() })` — the same
conflict-free insert as `handleFeedback`. -/
def saveComment (st : ProjectState) (sectionId comment : String) (ok : Bool) : ProjectState :=
  if jsTrim comment = "" then st
  else if ok then
    { st with feedback :=
        st.feedback ++ [⟨toString st.feedback.length, sectionId, none, some (jsTrim comment)⟩] }
  else st

/-! ## Export (`exportDocument`, Editor lines 323-392) -/

/-- A block of the generated Word document: the topic heading
(`HeadingLevel.HEADING_1`), a section title (`HEADING_2`), or a body
paragraph. -/
inductive DocxBlock where
  | heading1 (text : String)
  | heading2 (text : String)
  | paragraph (text : String)
deriving DecidableEq

/-- One `addText` call on a PowerPoint slide; of the fixed layout options
only the font size is kept (44 topic, 32 section title, 16 body), which is
what distinguishes the three text roles in the source. -/
structure SlideText where
  text : String
  fontSize : Nat
deriving DecidableEq

/-- One PowerPoint slide: the text boxes added to it, in call order. -/
structure Slide where
  texts : List SlideText
deriving DecidableEq

/-- The exported artifact: a Word block list or a PowerPoint slide list. -/
inductive ExportArtifact where
  | word (blocks : List DocxBlock)
  | powerPoint (slides : List Slide)
deriving DecidableEq

/-- The `docx` branch of `exportDocument`: one `HEADING_1` paragraph with
the topic, then per section (via `sections.flatMap`) a `HEADING_2` with
the title and a body paragraph with `section.content || ''`. -/
def exportDocx (topic : String) (sections : List Section) : List DocxBlock :=
  DocxBlock.heading1 topic ::
    sections.flatMap (fun s => [DocxBlock.heading2 s.title, DocxBlock.paragraph (s.content.getD "")])

/-- The `pptx` branch of `exportDocument`: a title slide with the topic
(font 44), then per section one slide with the title (font 32) and the
body `section.content || ''` (font 16). -/
def exportPptx (topic : String) (sections : List Section) : List Slide :=
  ⟨[⟨topic, 44⟩]⟩ :: sections.map (fun s => ⟨[⟨s.title, 32⟩, ⟨s.content.getD "", 16⟩]⟩)

/-- `exportDocument` (Editor, lines 323-392): dispatch on the project's
document type over the loaded state. -/
def exportDocument (p : ProjectState) : ExportArtifact :=
  match p.document_type with
  | DocumentType.docx => ExportArtifact.word (exportDocx p.topic p.sections)
  | DocumentType.pptx => ExportArtifact.powerPoint (exportPptx p.topic p.sections)

/-- The artifact's top-level headline texts: the `HEADING_1` texts of a
Word document, or the texts on the title slide of a deck. -/
def topLevelTitles : ExportArtifact → List String
  | ExportArtifact.word blocks =>
      blocks.filterMap (fun b => match b with | DocxBlock.heading1 t => some t | _ => none)
  | ExportArtifact.powerPoint slides =>
      match slides with
      | [] => []
      | titleSlide :: _ => titleSlide.texts.map (fun t => t.text)

/-- The artifact's per-section title texts, in artifact order: the
`HEADING_2` texts, or the first text box of each slide after the title
slide. -/
def exportedSectionTitles : ExportArtifact → List String
  | ExportArtifact.word blocks =>
      blocks.filterMap (fun b => match b with | DocxBlock.heading2 t => some t | _ => none)
  | ExportArtifact.powerPoint slides =>
      slides.tail.filterMap (fun sl => sl.texts.head?.map (fun t => t.text))

/-- The artifact's per-section body texts, in artifact order: the body
paragraphs, or the second text box of each slide after the title slide. -/
def exportedSectionBodies : ExportArtifact → List String
  | ExportArtifact.word blocks =>
      blocks.filterMap (fun b => match b with | DocxBlock.paragraph t => some t | _ => none)
  | ExportArtifact.powerPoint slides =>
      slides.tail.filterMap (fun sl => (sl.texts.drop 1).head?.map (fun t => t.text))

/-! ## The Editor as a transition system -/

/-- One user action on an existing project.  Upstream AI outcomes and the
uninspected write outcomes of the refine handler and the feedback writes
are carried as constructor arguments. -/
inductive Op where
  | generate (ok : Bool) (out : String → String)
  | refine (sectionId prompt : String) (aiResult : Option String) (insertOk updateOk : Bool)
  | like (sectionId : String) (isLiked : Bool) (ok : Bool)
  | comment (sectionId text : String) (ok : Bool)
  | exportDoc

/-- Apply one Editor action.  `generate` is reachable only through the
"Generate Content" button, which the Editor renders only while
`!sections.some(s => s.is_generated)` (line 413); a blocked action is a
no-op.  `exportDoc` writes nothing. -/
def applyOp (st : ProjectState) : Op → ProjectState
  | Op.generate ok out =>
      if st.sections.any (fun s => s.is_generated) then st
      else generateAllContent st ok out
  | Op.refine sid prompt aiResult insOk updOk => refineSection st sid prompt aiResult insOk updOk
  | Op.like sid b ok => handleFeedback st sid b ok
  | Op.comment sid c ok => saveComment st sid c ok
  | Op.exportDoc => st

/-- The sequence of values the `status` column takes during one action, in
write order.  Only `generateAllContent` writes the status: `'generating'`
first, then `'completed'` or the `'draft'` rollback. -/
def statusWrites (st : ProjectState) : Op → List Status
  | Op.generate ok _ =>
      if st.sections.any (fun s => s.is_generated) then []
      else [Status.generating, if ok then Status.completed else Status.draft]
  | _ => []

/-- All consecutive status transitions produced by a sequence of Editor
actions, starting from `st`. -/
def transitions (st : ProjectState) : List Op → List (Status × Status)
  | [] => []
  | op :: ops =>
      (st.status :: statusWrites st op).zip (statusWrites st op)
        ++ transitions (applyOp st op) ops

/-- The transitions the spec defines: `draft → generating`,
`generating → completed`, and the failure fallback `generating → draft`. -/
def allowedTransitions : List (Status × Status) :=
  [(Status.draft, Status.generating),
   (Status.generating, Status.completed),
   (Status.generating, Status.draft)]

/-- Modelled from the spec: no application code deletes a section; the RLS
policy `"Users can delete sections in their projects"` (schema lines
92-98) permits direct row deletion, and spec section 8 states deletions
leave gaps.  A deletion removes rows and touches nothing else. -/
def deleteSection (st : ProjectState) (sectionId : String) : ProjectState :=
  { st with sections := st.sections.filter (fun s => s.id ≠ sectionId) }

/-- The between-actions invariant behind the status discipline: at rest
the status is never `generating`; a `completed` project has a generated
section (the bulk generator flags every section on the success that sets
`completed`, and nothing unsets the flag), so the Generate button's
`!sections.some(s => s.is_generated)` guard blocks it; and the section
list is nonempty.  It holds after creation with at least one title and is
kept by every Editor action. -/
def Inv (st : ProjectState) : Prop :=
  st.status ≠ Status.generating
    ∧ (st.status = Status.completed → st.sections.any (fun s => s.is_generated) = true)
    ∧ st.sections ≠ []

end DocMind

namespace DocMind

/-! ## Theorems -/

lemma word_h1_flatMap (ss : List Section) :
    (ss.flatMap
        (fun s => [DocxBlock.heading2 s.title, DocxBlock.paragraph (s.content.getD "")])).filterMap
        (fun b => match b with | DocxBlock.heading1 t => some t | _ => none) = [] := by
  induction ss with
  | nil => rfl
  | cons s ss ih => simpa [List.flatMap_cons, List.filterMap_cons] using ih

lemma word_h2_flatMap (ss : List Section) :
    (ss.flatMap
        (fun s => [DocxBlock.heading2 s.title, DocxBlock.paragraph (s.content.getD "")])).filterMap
        (fun b => match b with | DocxBlock.heading2 t => some t | _ => none)
      = ss.map (fun s => s.title) := by
  induction ss with
  | nil => rfl
  | cons s ss ih => simpa [List.flatMap_cons, List.filterMap_cons] using ih

lemma word_body_flatMap (ss : List Section) :
    (ss.flatMap
        (fun s => [DocxBlock.heading2 s.title, DocxBlock.paragraph (s.content.getD "")])).filterMap
        (fun b => match b with | DocxBlock.paragraph t => some t | _ => none)
      = ss.map (fun s => s.content.getD "") := by
  induction ss with
  | nil => rfl
  | cons s ss ih => simpa [List.flatMap_cons, List.filterMap_cons] using ih

lemma ppt_titles_map (ss : List Section) :
    (ss.map (fun s => (⟨[⟨s.title, 32⟩, ⟨s.content.getD "", 16⟩]⟩ : Slide))).filterMap
        (fun sl => sl.texts.head?.map (fun t => t.text))
      = ss.map (fun s => s.title) := by
  induction ss with
  | nil => rfl
  | cons s ss ih => simpa [List.filterMap_cons] using ih

lemma ppt_bodies_map (ss : List Section) :
    (ss.map (fun s => (⟨[⟨s.title, 32⟩, ⟨s.content.getD "", 16⟩]⟩ : Slide))).filterMap
        (fun sl => (sl.texts.drop 1).head?.map (fun t => t.text))
      = ss.map (fun s => s.content.getD "") := by
  induction ss with
  | nil => rfl
  | cons s ss ih => simpa [List.filterMap_cons] using ih

/-- C1: for every project whose section list is ordered by order position
(as `loadProject` returns it), `exportDocument` yields an artifact whose
top-level headline is the topic exactly once (the single `HEADING_1`, or
the single text on the title slide), and whose per-section titles and
bodies are exactly one per section, in the order of the sorted list, a
null content rendered as the empty body string. -/
theorem c1_export_structure (p : ProjectState)
    (hsorted : p.sections.Pairwise (fun a b => a.order_index ≤ b.order_index)) :
    topLevelTitles (exportDocument p) = [p.topic]
      ∧ exportedSectionTitles (exportDocument p) = p.sections.map (fun s => s.title)
      ∧ exportedSectionBodies (exportDocument p) = p.sections.map (fun s => s.content.getD "") := by
  cases hdt : p.document_type with
  | docx =>
    refine ⟨?_, ?_, ?_⟩ <;>
      simp [exportDocument, hdt, exportDocx, topLevelTitles, exportedSectionTitles,
        exportedSectionBodies, List.filterMap_cons, word_h1_flatMap, word_h2_flatMap,
        word_body_flatMap]
  | pptx =>
    have e : exportDocument p = ExportArtifact.powerPoint (exportPptx p.topic p.sections) := by
      simp [exportDocument, hdt]
    refine ⟨?_, ?_, ?_⟩
    · rw [e]; rfl
    · rw [e]; exact ppt_titles_map p.sections
    · rw [e]; exact ppt_bodies_map p.sections

/-- Witness for C1 at the spec's own scenario: topic "EV market analysis",
three sections A, B, C with null content. -/
theorem c1_export_structure_witness :
    topLevelTitles (exportDocument ⟨DocumentType.docx, "EV market analysis", Status.draft,
        [⟨"0", "A", none, 0, false⟩, ⟨"1", "B", none, 1, false⟩, ⟨"2", "C", none, 2, false⟩],
        [], []⟩) = ["EV market analysis"]
      ∧ exportedSectionTitles (exportDocument ⟨DocumentType.docx, "EV market analysis",
          Status.draft,
          [⟨"0", "A", none, 0, false⟩, ⟨"1", "B", none, 1, false⟩, ⟨"2", "C", none, 2, false⟩],
          [], []⟩) = ["A", "B", "C"]
      ∧ exportedSectionBodies (exportDocument ⟨DocumentType.docx, "EV market analysis",
          Status.draft,
          [⟨"0", "A", none, 0, false⟩, ⟨"1", "B", none, 1, false⟩, ⟨"2", "C", none, 2, false⟩],
          [], []⟩) = ["", "", ""] := by
  have h := c1_export_structure ⟨DocumentType.docx, "EV market analysis", Status.draft,
    [⟨"0", "A", none, 0, false⟩, ⟨"1", "B", none, 1, false⟩, ⟨"2", "C", none, 2, false⟩],
    [], []⟩ (by decide)
  simpa using h

/-- C2: whenever the bulk content-generation action runs and the upstream
call fails, the project status afterwards is `draft` — the `generating`
written at the start of the action is rolled back by the catch block. -/
theorem c2_generate_failure_rolls_back_to_draft (st : ProjectState) (out : String → String) :
    (generateAllContent st false out).status = Status.draft
      ∧ (generateAllContent st false out).status ≠ Status.generating := by
  simp [generateAllContent]

/-- C9: the refine-content handler builds its response from the upstream
AI outcome alone; with the audit insert failing (or the content update
failing) it still answers success while the corresponding row is missing
or the stored content is unchanged. -/
theorem c9_refine_success_despite_failed_writes (st : ProjectState)
    (sectionId prompt : String) (currentContent : Option String) (r : String) :
    ((refineContent st sectionId prompt currentContent (some r) false true).1.success = true
      ∧ (refineContent st sectionId prompt currentContent (some r) false true).2.refinement_history
          = st.refinement_history)
    ∧ ((refineContent st sectionId prompt currentContent (some r) true false).1.success = true
      ∧ (refineContent st sectionId prompt currentContent (some r) true false).2.sections
          = st.sections) := by
  simp [refineContent]


lemma map_key_refine_update (ss : List Section) (sid r : String) :
    (ss.map (fun s => if s.id = sid then { s with content := some r } else s)).map
        (fun s => (s.id, s.order_index, s.title))
      = ss.map (fun s => (s.id, s.order_index, s.title)) := by
  rw [List.map_map]
  refine List.map_congr_left ?_
  intro s _
  by_cases h : s.id = sid <;> simp [h]

lemma refineContent_sections_key (st : ProjectState) (sid prompt : String)
    (cur : Option String) (aiResult : Option String) (insOk updOk : Bool) :
    (refineContent st sid prompt cur aiResult insOk updOk).2.sections.map
        (fun s => (s.id, s.order_index, s.title))
      = st.sections.map (fun s => (s.id, s.order_index, s.title)) := by
  cases aiResult with
  | none => rfl
  | some r =>
    cases insOk with
    | false =>
      cases updOk with
      | false => rfl
      | true => exact map_key_refine_update st.sections sid r
    | true =>
      cases updOk with
      | false => rfl
      | true => exact map_key_refine_update st.sections sid r

/-- C4: sections are created with order positions exactly the array
indexes `0..n-1`; every Editor action preserves each section's id, order
position and title; and a raw deletion leaves the surviving rows' ids and
order positions untouched (a sublist of the old projection), so gaps
persist — nothing renumbers or deduplicates. -/
theorem c4_order_index_creation_and_preservation :
    (∀ (dt : DocumentType) (topic : String) (titles : List String),
        (createProject dt topic titles).sections.map (fun s => s.order_index)
          = List.range titles.length)
    ∧ (∀ (st : ProjectState) (op : Op),
        (applyOp st op).sections.map (fun s => (s.id, s.order_index, s.title))
          = st.sections.map (fun s => (s.id, s.order_index, s.title)))
    ∧ (∀ (st : ProjectState) (sid : String),
        ((deleteSection st sid).sections.map (fun s => (s.id, s.order_index))).Sublist
          (st.sections.map (fun s => (s.id, s.order_index)))) := by
  refine ⟨?_, ?_, ?_⟩
  · intro dt topic titles
    show (((List.range titles.length).zip titles).map _).map _ = _
    rw [List.map_map]
    exact List.map_fst_zip _ _ (by simp)
  · intro st op
    cases op with
    | generate ok out =>
      simp only [applyOp]
      split
      · rfl
      · unfold generateAllContent generateContentFn
        cases ok <;> simp [List.map_map]
    | refine sid prompt aiResult insOk updOk =>
      simp only [applyOp]
      unfold refineSection
      split
      · rfl
      · cases hf : st.sections.find? (fun s => s.id = sid) with
        | none => rfl
        | some sec => exact refineContent_sections_key st sid prompt sec.content aiResult insOk updOk
    | like sid b ok =>
      cases ok <;> rfl
    | comment sid c ok =>
      simp only [applyOp]
      unfold saveComment
      split
      · rfl
      · split <;> rfl
    | exportDoc => rfl
  · intro st sid
    exact (List.filter_sublist _).map _

/-- C5 counterexample: the creation flow is a failure path other than the
bulk rollback, yet when the sections insert fails after the project insert
succeeded, the persisted state differs from the state before the call: the
new project row (here for topic "T") is left behind. -/
theorem c5_counterexample_creation_partial_write :
    (handleSubmit emptyStore true DocumentType.docx "T" ["A"] true false).2 = false
      ∧ (handleSubmit emptyStore true DocumentType.docx "T" ["A"] true false).1 ≠ emptyStore
      ∧ (handleSubmit emptyStore true DocumentType.docx "T" ["A"] true false).1.projects
          = [⟨"0", DocumentType.docx, "T", Status.draft⟩]
      ∧ (handleSubmit emptyStore true DocumentType.docx "T" ["A"] true false).1.sections = [] := by
  refine ⟨by decide, by decide, by decide, by decide⟩

/-- C5 as amended: every failure path other than the bulk rollback and
other than project creation leaves the persisted state exactly as it was —
a failed refine call (upstream error), a failed outline call, a failed
feedback or comment write, a failed project insert, and export write
nothing.  Project creation is the exception recorded by the
counterexample. -/
theorem c5_amended_failure_paths_leave_state :
    (∀ (st : ProjectState) (sid prompt : String) (cur : Option String) (insOk updOk : Bool),
        (refineContent st sid prompt cur none insOk updOk).2 = st
          ∧ (refineContent st sid prompt cur none insOk updOk).1.success = false)
    ∧ (∀ (st : ProjectState) (sid prompt : String) (insOk updOk : Bool),
        refineSection st sid prompt none insOk updOk = st)
    ∧ (∀ (db : Store) (cfg : ConfigState),
        (generateOutline db cfg none).1 = db ∧ (generateOutline db cfg none).2 = cfg)
    ∧ (∀ (st : ProjectState) (sid : String) (b : Bool), handleFeedback st sid b false = st)
    ∧ (∀ (st : ProjectState) (sid c : String), saveComment st sid c false = st)
    ∧ (∀ (st : Store) (lo : Bool) (dt : DocumentType) (topic : String) (titles : List String)
          (sOk : Bool), (handleSubmit st lo dt topic titles false sOk).1 = st)
    ∧ (∀ (st : ProjectState), applyOp st Op.exportDoc = st) := by
  refine ⟨?_, ?_, ?_, ?_, ?_, ?_, ?_⟩
  · intro st sid prompt cur insOk updOk
    exact ⟨rfl, rfl⟩
  · intro st sid prompt insOk updOk
    unfold refineSection
    split
    · rfl
    · cases hf : st.sections.find? (fun s => s.id = sid) <;> simp [refineContent]
  · intro db cfg
    unfold generateOutline generateOutlineFn
    split <;> simp
  · intro st sid b
    rfl
  · intro st sid c
    unfold saveComment
    split <;> rfl
  · intro st lo dt topic titles sOk
    unfold handleSubmit
    split
    · rfl
    · split
      · rfl
      · rfl
  · intro st
    rfl

/-- C6 counterexample: on the same section, one like write followed by one
comment write leaves two feedback rows (the upsert never conflicts, so
rows accumulate), and the comment write does not overwrite the earlier
row's `is_liked` — refuting "at most one logical feedback row per section"
and the clobbering of one path's fields by the other. -/
theorem c6_counterexample_feedback_rows_accumulate :
    ((saveComment (handleFeedback ⟨DocumentType.docx, "T", Status.completed,
          [⟨"s0", "A", some "b", 0, true⟩], [], []⟩ "s0" true true) "s0" "note" true).feedback.filter
        (fun f => f.section_id = "s0")).length = 2
      ∧ (saveComment (handleFeedback ⟨DocumentType.docx, "T", Status.completed,
            [⟨"s0", "A", some "b", 0, true⟩], [], []⟩ "s0" true true) "s0" "note" true).feedback
          = [⟨"0", "s0", some true, none⟩, ⟨"1", "s0", none, some "note"⟩] := by
  refine ⟨by decide, by decide⟩

/-- C6 as amended: both feedback write paths are upsert calls with no
conflict key, and since the payload omits the generated primary key they
always insert: a like write followed by a comment write on the same
section appends two rows, the earlier row's fields intact — one row per
feedback act, accumulating, with neither path overwriting the other. -/
theorem c6_amended_feedback_upserts_insert (st : ProjectState) (sid : String) (b : Bool)
    (c : String) (hc : jsTrim c ≠ "") :
    (saveComment (handleFeedback st sid b true) sid c true).feedback
      = st.feedback ++
          [⟨toString st.feedback.length, sid, some b, none⟩,
           ⟨toString (st.feedback.length + 1), sid, none, some (jsTrim c)⟩] := by
  simp [handleFeedback, saveComment, hc]

/-- Witness for C6 as amended, at a one-section project with one prior
feedback row. -/
theorem c6_amended_feedback_upserts_insert_witness :
    (saveComment (handleFeedback ⟨DocumentType.docx, "T", Status.draft,
          [⟨"s0", "A", some "b", 0, true⟩], [], [⟨"z", "s1", some false, none⟩]⟩ "s0" false true)
        "s0" "  ok " true).feedback
      = [⟨"z", "s1", some false, none⟩, ⟨"1", "s0", some false, none⟩,
         ⟨"2", "s0", none, some "ok"⟩] := by
  have h := c6_amended_feedback_upserts_insert ⟨DocumentType.docx, "T", Status.draft,
    [⟨"s0", "A", some "b", 0, true⟩], [], [⟨"z", "s1", some false, none⟩]⟩ "s0" false "  ok "
    (by decide)
  simpa using h

lemma find?_content_update (ss : List Section) (sid r : String) :
    (ss.map (fun s => if s.id = sid then { s with content := some r } else s)).find?
        (fun s => s.id = sid)
      = (ss.find? (fun s => s.id = sid)).map
          (fun s => ({ s with content := some r } : Section)) := by
  induction ss with
  | nil => rfl
  | cons a ss ih =>
    by_cases h : a.id = sid
    · simp [List.find?_cons, h]
    · simp [List.find?_cons, h, ih]

lemma refineSection_success (st : ProjectState) (sid prompt r : String) (sec : Section)
    (hp : jsTrim prompt ≠ "") (hfind : st.sections.find? (fun s => s.id = sid) = some sec) :
    refineSection st sid prompt (some r) true true
      = { st with
          refinement_history := st.refinement_history ++ [⟨sid, prompt, sec.content, r⟩],
          sections := st.sections.map
            (fun s => if s.id = sid then { s with content := some r } else s) } := by
  unfold refineSection
  rw [if_neg hp, hfind]
  rfl

/-- C3: a successful refine call appends exactly one audit row carrying
the prompt, the previous content and the new content, and overwrites the
section's stored content with the result; hence two successive refine
calls with different prompts leave the second result as the stored
content and exactly the two audit rows, in call order (the second row's
previous content being the first result). -/
theorem c3_refine_appends_audit_and_updates_content (st : ProjectState)
    (sid p1 p2 r1 r2 : String) (sec : Section)
    (h1 : jsTrim p1 ≠ "") (h2 : jsTrim p2 ≠ "") (hp : p1 ≠ p2)
    (hfind : st.sections.find? (fun s => s.id = sid) = some sec) :
    ((refineSection st sid p1 (some r1) true true).refinement_history
        = st.refinement_history ++ [⟨sid, p1, sec.content, r1⟩])
    ∧ ((refineSection st sid p1 (some r1) true true).sections.find? (fun s => s.id = sid)
        = some { sec with content := some r1 })
    ∧ ((refineSection (refineSection st sid p1 (some r1) true true) sid p2
          (some r2) true true).refinement_history
        = st.refinement_history ++ [⟨sid, p1, sec.content, r1⟩, ⟨sid, p2, some r1, r2⟩])
    ∧ ((refineSection (refineSection st sid p1 (some r1) true true) sid p2
          (some r2) true true).sections.find? (fun s => s.id = sid)
        = some { sec with content := some r2 }) := by
  have hid : sec.id = sid := by simpa using List.find?_some hfind
  have e1 := refineSection_success st sid p1 r1 sec h1 hfind
  have hfindA : (refineSection st sid p1 (some r1) true true).sections.find?
      (fun s => s.id = sid) = some { sec with content := some r1 } := by
    rw [e1]
    show (st.sections.map _).find? _ = _
    rw [find?_content_update, hfind]
    rfl
  have e2 := refineSection_success (refineSection st sid p1 (some r1) true true) sid p2 r2
    { sec with content := some r1 } h2 hfindA
  refine ⟨by rw [e1], hfindA, ?_, ?_⟩
  · rw [e2, e1]
    simp
  · rw [e2]
    show ((refineSection st sid p1 (some r1) true true).sections.map _).find? _ = _
    rw [find?_content_update, hfindA]
    simp [hid]

/-- Witness for C3 at a one-section project with generated content. -/
theorem c3_refine_witness :
    ((refineSection (refineSection ⟨DocumentType.docx, "T", Status.completed,
          [⟨"s0", "Intro", some "c0", 0, true⟩], [], []⟩ "s0" "make it formal" (some "c1")
          true true) "s0" "shorter" (some "c2") true true).refinement_history
        = [⟨"s0", "make it formal", some "c0", "c1"⟩, ⟨"s0", "shorter", some "c1", "c2"⟩])
    ∧ ((refineSection (refineSection ⟨DocumentType.docx, "T", Status.completed,
          [⟨"s0", "Intro", some "c0", 0, true⟩], [], []⟩ "s0" "make it formal" (some "c1")
          true true) "s0" "shorter" (some "c2") true true).sections.find?
          (fun s => s.id = "s0")
        = some ⟨"s0", "Intro", some "c2", 0, true⟩) := by
  have h := c3_refine_appends_audit_and_updates_content
    ⟨DocumentType.docx, "T", Status.completed, [⟨"s0", "Intro", some "c0", 0, true⟩], [], []⟩
    "s0" "make it formal" "shorter" "c1" "c2" ⟨"s0", "Intro", some "c0", 0, true⟩
    (by decide) (by decide) (by decide) (by decide)
  exact ⟨h.2.2.1, h.2.2.2⟩

lemma refineSection_status (st : ProjectState) (sid prompt : String)
    (aiResult : Option String) (insOk updOk : Bool) :
    (refineSection st sid prompt aiResult insOk updOk).status = st.status := by
  unfold refineSection
  split
  · rfl
  · cases hf : st.sections.find? (fun s => s.id = sid) with
    | none => rfl
    | some sec =>
      unfold refineContent
      cases aiResult with
      | none => rfl
      | some r => cases insOk <;> cases updOk <;> rfl

lemma map_flags_refine_update (ss : List Section) (sid r : String) :
    (ss.map (fun s => if s.id = sid then { s with content := some r } else s)).map
        (fun s => s.is_generated)
      = ss.map (fun s => s.is_generated) := by
  rw [List.map_map]
  refine List.map_congr_left ?_
  intro s _
  by_cases h : s.id = sid <;> simp [h]

lemma refineContent_flags (st : ProjectState) (sid prompt : String)
    (cur : Option String) (aiResult : Option String) (insOk updOk : Bool) :
    (refineContent st sid prompt cur aiResult insOk updOk).2.sections.map
        (fun s => s.is_generated)
      = st.sections.map (fun s => s.is_generated) := by
  cases aiResult with
  | none => rfl
  | some r =>
    cases insOk with
    | false =>
      cases updOk with
      | false => rfl
      | true => exact map_flags_refine_update st.sections sid r
    | true =>
      cases updOk with
      | false => rfl
      | true => exact map_flags_refine_update st.sections sid r

lemma refineSection_flags (st : ProjectState) (sid prompt : String)
    (aiResult : Option String) (insOk updOk : Bool) :
    (refineSection st sid prompt aiResult insOk updOk).sections.map (fun s => s.is_generated)
      = st.sections.map (fun s => s.is_generated) := by
  unfold refineSection
  split
  · rfl
  · cases hf : st.sections.find? (fun s => s.id = sid) with
    | none => rfl
    | some sec => exact refineContent_flags st sid prompt sec.content aiResult insOk updOk

lemma any_flag_of_map_eq {l ll : List Section}
    (h : l.map (fun s => s.is_generated) = ll.map (fun s => s.is_generated)) :
    (l.any (fun s => s.is_generated)) = (ll.any (fun s => s.is_generated)) := by
  have e : ∀ (x : List Section),
      (x.any fun s => s.is_generated) = (x.map (fun s => s.is_generated)).any id := by
    intro x
    induction x with
    | nil => rfl
    | cons a x ih => simp [ih]
  rw [e l, e ll, h]

lemma ne_nil_of_map_eq {l ll : List Section}
    (h : l.map (fun s => s.is_generated) = ll.map (fun s => s.is_generated))
    (hne : ll ≠ []) : l ≠ [] := by
  intro hl
  rw [hl] at h
  exact hne (List.map_eq_nil_iff.mp h.symm)

lemma inv_applyOp (st : ProjectState) (op : Op) (h : Inv st) : Inv (applyOp st op) := by
  obtain ⟨hg, hc, hne⟩ := h
  cases op with
  | generate ok out =>
    simp only [applyOp]
    split
    · exact ⟨hg, hc, hne⟩
    · unfold generateAllContent generateContentFn
      cases ok with
      | false => exact ⟨by simp, by simp, hne⟩
      | true =>
        refine ⟨by simp, ?_, by simpa using hne⟩
        intro _
        cases hs : st.sections with
        | nil => exact absurd hs hne
        | cons a l => simp [hs]
  | refine sid prompt aiResult insOk updOk =>
    have hst := refineSection_status st sid prompt aiResult insOk updOk
    have hfl := refineSection_flags st sid prompt aiResult insOk updOk
    exact ⟨by rw [applyOp, hst]; exact hg,
      by rw [applyOp, hst]; intro hcc; rw [any_flag_of_map_eq hfl]; exact hc hcc,
      ne_nil_of_map_eq hfl hne⟩
  | like sid b ok =>
    cases ok <;> exact ⟨hg, hc, hne⟩
  | comment sid c ok =>
    have hsec : (applyOp st (Op.comment sid c ok)).sections = st.sections := by
      simp only [applyOp]
      unfold saveComment
      split
      · rfl
      · split <;> rfl
    have hst : (applyOp st (Op.comment sid c ok)).status = st.status := by
      simp only [applyOp]
      unfold saveComment
      split
      · rfl
      · split <;> rfl
    exact ⟨by rw [hst]; exact hg, by rw [hst, hsec]; exact hc, by rw [hsec]; exact hne⟩
  | exportDoc => exact ⟨hg, hc, hne⟩

lemma statusWrites_allowed (st : ProjectState) (op : Op) (h : Inv st) :
    ∀ t ∈ (st.status :: statusWrites st op).zip (statusWrites st op), t ∈ allowedTransitions := by
  obtain ⟨hg, hc, hne⟩ := h
  cases op with
  | generate ok out =>
    simp only [statusWrites]
    split
    · intro t ht
      simp at ht
    · rename_i hguard
      have hdraft : st.status = Status.draft := by
        cases hs : st.status with
        | draft => rfl
        | generating => exact absurd hs hg
        | completed => exact absurd (hc hs) (by simpa using hguard)
      intro t ht
      rw [hdraft] at ht
      cases ok <;> simp [allowedTransitions] at ht ⊢ <;> rcases ht with h1 | h1 <;> simp [h1]
  | refine sid prompt aiResult insOk updOk => intro t ht; simp [statusWrites] at ht
  | like sid b ok => intro t ht; simp [statusWrites] at ht
  | comment sid c ok => intro t ht; simp [statusWrites] at ht
  | exportDoc => intro t ht; simp [statusWrites] at ht

lemma transitions_allowed (ops : List Op) :
    ∀ (st : ProjectState), Inv st → ∀ t ∈ transitions st ops, t ∈ allowedTransitions := by
  induction ops with
  | nil => intro st _ t ht; simp [transitions] at ht
  | cons op ops ih =>
    intro st hInv t ht
    rw [transitions] at ht
    rcases List.mem_append.mp ht with hl | hr
    · exact statusWrites_allowed st op hInv t hl
    · exact ih (applyOp st op) (inv_applyOp st op hInv) t hr

/-- C7 counterexample: the claim fails as stated.  A submission with an
empty title list passes `handleSubmit`'s validation (possible because the
AI-suggest path can set the Configure list to an empty outline), and on
the resulting zero-section project the Generate button's
`!sections.some(s => s.is_generated)` guard never blocks: after one
successful run (status `completed`, still no section to flag) a second
run writes the transition `completed → generating`, which is not among
the defined transitions. -/
theorem c7_counterexample_completed_to_generating :
    validSubmit "T" [] = true
      ∧ (Status.completed, Status.generating) ∈
          transitions (createProject DocumentType.docx "T" [])
            [Op.generate true (fun _ => ""), Op.generate true (fun _ => "")]
      ∧ (Status.completed, Status.generating) ∉ allowedTransitions := by
  refine ⟨by decide, by decide, by decide⟩

/-- C7 as amended: for every project created through the configuration
screen from a nonempty title list, the status starts at `draft` and every
status transition produced by any sequence of Editor actions is one of
`draft → generating`, `generating → completed`, `generating → draft`.
(The unamended claim fails only for the zero-section projects of the
counterexample.) -/
theorem c7_amended_status_transitions (dt : DocumentType) (topic : String)
    (titles : List String) (hv : validSubmit topic titles = true) (hne : titles ≠ []) :
    (createProject dt topic titles).status = Status.draft
      ∧ ∀ (ops : List Op) (t : Status × Status),
          t ∈ transitions (createProject dt topic titles) ops → t ∈ allowedTransitions := by
  have hInv : Inv (createProject dt topic titles) := by
    refine ⟨by simp [createProject], by simp [createProject], ?_⟩
    show ((List.range titles.length).zip titles).map _ ≠ []
    simp only [ne_eq, List.map_eq_nil_iff]
    intro hzip
    have hlen := congrArg List.length hzip
    simp [List.length_zip] at hlen
    exact hne hlen
  exact ⟨rfl, fun ops t ht => transitions_allowed ops _ hInv t ht⟩

/-- Witness for C7 as amended: a one-title project and one successful
generation run. -/
theorem c7_amended_status_transitions_witness :
    (createProject DocumentType.docx "T" ["A"]).status = Status.draft
      ∧ ∀ (ops : List Op) (t : Status × Status),
          t ∈ transitions (createProject DocumentType.docx "T" ["A"]) ops →
            t ∈ allowedTransitions := by
  exact c7_amended_status_transitions DocumentType.docx "T" ["A"] (by decide) (by decide)

/-- C8: a `generateOutline` run changes no table of the store (the edge
function has no persistence side effect, and the client only replaces its
local title list): the store is returned as it was, the local topic and
document type are untouched, on success the local titles become the
returned outline, and on failure the local state is unchanged. -/
theorem c8_outline_no_persistence (db : Store) (cfg : ConfigState)
    (result : Option (List String)) :
    (generateOutline db cfg result).1 = db
      ∧ (generateOutline db cfg result).2.topic = cfg.topic
      ∧ (generateOutline db cfg result).2.documentType = cfg.documentType
      ∧ (∀ outline, result = some outline → jsTrim cfg.topic ≠ "" →
          (generateOutline db cfg result).2.sections = outline)
      ∧ (result = none → (generateOutline db cfg result).2 = cfg) := by
  refine ⟨?_, ?_, ?_, ?_, ?_⟩ <;>
    cases result <;>
    by_cases h : jsTrim cfg.topic = "" <;>
    simp [generateOutline, generateOutlineFn, h]

/-- Witness for C8 at a concrete store and outline. -/
theorem c8_outline_no_persistence_witness :
    (generateOutline emptyStore ⟨DocumentType.docx, "T", [""]⟩ (some ["A", "B"])).1 = emptyStore
      ∧ (generateOutline emptyStore ⟨DocumentType.docx, "T", [""]⟩ (some ["A", "B"])).2.sections
          = ["A", "B"] := by
  have h := c8_outline_no_persistence emptyStore ⟨DocumentType.docx, "T", [""]⟩ (some ["A", "B"])
  exact ⟨h.1, h.2.2.2.1 ["A", "B"] rfl (by decide)⟩

lemma removeSection_ne_nil (cfg : ConfigState) (i : Nat) (h : cfg.sections ≠ []) :
    (removeSection cfg i).sections ≠ [] := by
  unfold removeSection
  split
  · rename_i hlen
    simp only [ne_eq, List.map_eq_nil_iff]
    intro hf
    rw [List.filter_eq_nil_iff] at hf
    have hall : ∀ n ∈ List.range cfg.sections.length, n = i := by
      intro n hn
      rw [← List.enum_map_fst] at hn
      obtain ⟨p, hp, hfst⟩ := List.mem_map.mp hn
      have := hf p hp
      simp at this
      omega
    have h0 : (0 : Nat) = i := hall 0 (by simp; omega)
    have h1 : (1 : Nat) = i := hall 1 (by simp; omega)
    omega
  · exact h

/-- C10 counterexample: the AI-suggest path can set the Configure title
list to an empty outline, so the configuration screen does let the list
become empty; the submission then passes validation (no title is blank
among zero titles) and creates a project with zero sections. -/
theorem c10_counterexample_empty_outline :
    (runCfg (emptyStore, initialConfig) [CfgOp.setTopic "T", CfgOp.suggest (some [])]).2.sections
        = ([] : List String)
      ∧ (handleSubmit (runCfg (emptyStore, initialConfig)
            [CfgOp.setTopic "T", CfgOp.suggest (some [])]).1 true DocumentType.docx "T"
            (runCfg (emptyStore, initialConfig)
              [CfgOp.setTopic "T", CfgOp.suggest (some [])]).2.sections true true).2 = true
      ∧ (handleSubmit (runCfg (emptyStore, initialConfig)
            [CfgOp.setTopic "T", CfgOp.suggest (some [])]).1 true DocumentType.docx "T"
            (runCfg (emptyStore, initialConfig)
              [CfgOp.setTopic "T", CfgOp.suggest (some [])]).2.sections true true).1.projects.length
          = 1
      ∧ (handleSubmit (runCfg (emptyStore, initialConfig)
            [CfgOp.setTopic "T", CfgOp.suggest (some [])]).1 true DocumentType.docx "T"
            (runCfg (emptyStore, initialConfig)
              [CfgOp.setTopic "T", CfgOp.suggest (some [])]).2.sections true true).1.sections
          = [] := by
  refine ⟨by decide, by decide, by decide, by decide⟩

/-- C10 as amended: removing a title is refused when only one remains and
no edit or add empties the list, and every submission accepted from a
NONEMPTY title list creates at least one section, all with nonempty
trimmed titles; but the AI-suggest path can replace the list with an
empty outline, which is what the counterexample exercises. -/
theorem c10_amended_config_invariants :
    (∀ (cfg : ConfigState) (i : Nat), cfg.sections.length = 1 → removeSection cfg i = cfg)
    ∧ (∀ (cfg : ConfigState) (i : Nat), cfg.sections ≠ [] → (removeSection cfg i).sections ≠ [])
    ∧ (∀ (cfg : ConfigState), (addSection cfg).sections ≠ [])
    ∧ (∀ (cfg : ConfigState) (i : Nat) (v : String),
        cfg.sections ≠ [] → (updateSection cfg i v).sections ≠ [])
    ∧ (∀ (st : Store) (lo : Bool) (dt : DocumentType) (topic : String) (titles : List String)
        (pOk sOk : Bool), titles ≠ [] →
          (handleSubmit st lo dt topic titles pOk sOk).2 = true →
          ((handleSubmit st lo dt topic titles pOk sOk).1.sections.drop st.sections.length ≠ []
            ∧ ∀ row ∈ (handleSubmit st lo dt topic titles pOk sOk).1.sections.drop
                st.sections.length, row.title ≠ "")) := by
  refine ⟨?_, ?_, ?_, ?_, ?_⟩
  · intro cfg i h
    unfold removeSection
    rw [h]
    rfl
  · exact removeSection_ne_nil
  · intro cfg
    simp [addSection]
  · intro cfg i v
    simp [updateSection]
  · intro st lo dt topic titles pOk sOk htne hsucc
    have hb : validSubmit topic titles = true := by
      cases hb : validSubmit topic titles
      · simp [handleSubmit, hb] at hsucc
      · rfl
    have hlo : lo = true := by
      cases hlo : lo
      · simp [handleSubmit, hb, hlo] at hsucc
      · rfl
    have hpk : pOk = true := by
      cases hpk : pOk
      · simp [handleSubmit, hb, hlo, hpk] at hsucc
      · rfl
    have hsk : sOk = true := by
      cases hsk : sOk
      · simp [handleSubmit, hb, hlo, hpk, hsk] at hsucc
      · rfl
    subst hlo
    subst hpk
    subst hsk
    have hsec : (handleSubmit st true dt topic titles true true).1.sections
        = st.sections ++ ((List.range titles.length).zip titles).map
            (fun p => (⟨toString st.projects.length ++ "." ++ toString p.1,
              toString st.projects.length, jsTrim p.2, p.1, none, false⟩ : SectionRow)) := by
      simp [handleSubmit, hb]
    rw [hsec, List.drop_left]
    constructor
    · simp only [ne_eq, List.map_eq_nil_iff]
      intro hzip
      have hlen := congrArg List.length hzip
      simp [List.length_zip] at hlen
      exact htne hlen
    · intro row hrow
      obtain ⟨p, hp, hrw⟩ := List.mem_map.mp hrow
      have hmem : p.2 ∈ titles := by
        have := List.of_mem_zip (a := p.1) (b := p.2) (by simpa using hp)
        exact this.2
      have hnb : ∀ t ∈ titles, ¬ (jsTrim t = "") := by
        unfold validSubmit at hb
        simp at hb
        exact hb.2
      intro hrt
      apply hnb p.2 hmem
      have : row.title = jsTrim p.2 := by rw [← hrw]
      rw [← this]
      exact hrt

/-- Witness for C10 as amended, at a one-title submission. -/
theorem c10_amended_config_invariants_witness :
    removeSection ⟨DocumentType.docx, "T", ["A"]⟩ 0 = ⟨DocumentType.docx, "T", ["A"]⟩
      ∧ ((handleSubmit emptyStore true DocumentType.docx "T" ["A"] true
            true).1.sections.drop emptyStore.sections.length ≠ []
        ∧ ∀ row ∈ (handleSubmit emptyStore true DocumentType.docx "T" ["A"] true
            true).1.sections.drop emptyStore.sections.length, row.title ≠ "") := by
  have h := c10_amended_config_invariants
  exact ⟨h.1 ⟨DocumentType.docx, "T", ["A"]⟩ 0 (by decide),
    h.2.2.2.2 emptyStore true DocumentType.docx "T" ["A"] true true (by decide) (by decide)⟩

/-- Consistency of the two creation models: dropping the pre-existing
rows, a successful `handleSubmit` inserts sections whose titles and order
positions are exactly those of `createProject`. -/
theorem handleSubmit_createProject_consistent (st : Store) (dt : DocumentType) (topic : String)
    (titles : List String) (hb : validSubmit topic titles = true) :
    ((handleSubmit st true dt topic titles true true).1.sections.drop st.sections.length).map
        (fun r => (r.title, r.order_index))
      = (createProject dt topic titles).sections.map (fun s => (s.title, s.order_index)) := by
  have hsec : (handleSubmit st true dt topic titles true true).1.sections
      = st.sections ++ ((List.range titles.length).zip titles).map
          (fun p => (⟨toString st.projects.length ++ "." ++ toString p.1,
            toString st.projects.length, jsTrim p.2, p.1, none, false⟩ : SectionRow)) := by
    simp [handleSubmit, hb]
  rw [hsec, List.drop_left]
  show _ = (((List.range titles.length).zip titles).map _).map _
  rw [List.map_map, List.map_map]
  rfl

end DocMind
